/-
Verification of the earth grid/field engine and agent primitive.

Shallow embedding of:
  * src/array-grid.js   (ArrayGrid)
  * src/products.js     (averageGrid, buildGrid, interpolate, bilinear combiners,
                         getIrregularGridDescription, FACTORIES.generic.create)
  * src/math.js         (floorMod, radiansToDegrees, degreeToIndexWithStepCount)
  * src/agents (newAgent: submit / runTask cancellation discipline)

JS numbers are modelled as exact rationals (ℚ); JS `null`/`undefined` cell
contents are modelled as `Option`.
-/
import Mathlib

namespace Earth

/-! ## ArrayGrid (src/array-grid.js)

`grid` is the flat backing array: JS `new Array(width*height)` starts with every
slot `undefined`, and reads outside the written range give `undefined`, so the
backing store is a total function to `Option ℚ`. -/

structure ArrayGrid where
  width : ℕ
  height : ℕ
  grid : ℕ → Option ℚ

/-- Source `getAt` (src/array-grid.js lines 8-13): out-of-bounds reads give `null`. -/
def ArrayGrid.getAt (g : ArrayGrid) (x y : ℤ) : Option ℚ :=
  if x < 0 ∨ (g.width : ℤ) ≤ x ∨ y < 0 ∨ (g.height : ℤ) ≤ y then none
  else g.grid (g.width * y.toNat + x.toNat)

/-- Source `setAt` (src/array-grid.js lines 15-21). The JS version performs no bounds
check (only a `debugger` trap, a no-op); `averageGrid` only ever invokes it at
the in-bounds loop coordinates, so natural-number coordinates suffice. -/
def ArrayGrid.setAt (g : ArrayGrid) (x y : ℕ) (v : ℚ) : ArrayGrid :=
  { g with grid := Function.update g.grid (g.width * y + x) (some v) }

/-! ## averageGrid (src/products.js lines 181-211) -/

/-- The four neighbour reads of `averageAt`, in source order
(+x, +y, -x, -y), with the `va != null` filter applied. -/
def valuesAround (g : ArrayGrid) (x y : ℤ) : List ℚ :=
  [g.getAt (x + 1) y, g.getAt x (y + 1), g.getAt (x - 1) y, g.getAt x (y - 1)].filterMap id

/-- Inner `averageAt` of `averageGrid`: fill `(x, y)` with the mean
(`valuesAround.reduce((a,b) => a+b) / valuesAround.length`) of its filled
neighbours when more than one neighbour is filled. -/
def averageAt (g : ArrayGrid) (x y : ℕ) : ArrayGrid :=
  if 1 < (valuesAround g x y).length then
    g.setAt x y ((valuesAround g x y).sum / ((valuesAround g x y).length : ℚ))
  else g

/-- One loop-body iteration of `averageGrid`: cells already holding a value are
skipped (`value === null || value === undefined` guard). -/
def visitCell (g : ArrayGrid) (x y : ℕ) : ArrayGrid :=
  if g.getAt x y = none then averageAt g x y else g

/-- The y-order of one column scan: first `y = ⌊h/2⌋ … h-1` ascending, then
`y = ⌊h/2⌋-1 … 0` descending. -/
def columnOrder (h : ℕ) : List ℕ :=
  List.range' (h / 2) (h - h / 2) ++ (List.range (h / 2)).reverse

/-- The full visit order of `averageGrid`: columns `x = 0 … w-1`, each scanned
from the vertical midpoint outward. -/
def visitOrder (w h : ℕ) : List (ℕ × ℕ) :=
  (List.range w).flatMap fun x => (columnOrder h).map fun y => (x, y)

/-- Source `averageGrid` (src/products.js lines 181-211): the in-place double loop as a
left fold over the visit order. -/
def averageGrid (g : ArrayGrid) : ArrayGrid :=
  (visitOrder g.width g.height).foldl (fun acc p => visitCell acc p.1 p.2) g

/-! ## Bilinear combiners (src/products.js lines 499-512) -/

/-- Source `bilinearInterpolateScalar` (lines 499-503). -/
def bilinearInterpolateScalar (x y g00 g10 g01 g11 : ℚ) : ℚ :=
  let rx := 1 - x
  let ry := 1 - y
  g00 * rx * ry + g10 * x * ry + g01 * rx * y + g11 * x * y

/-- The u/v components of `bilinearInterpolateVector` (lines 505-511). -/
def bilinearInterpolateVectorUV (x y : ℚ) (g00 g10 g01 g11 : ℚ × ℚ) : ℚ × ℚ :=
  let rx := 1 - x
  let ry := 1 - y
  let a := rx * ry
  let b := x * ry
  let c := rx * y
  let d := x * y
  (g00.1 * a + g10.1 * b + g01.1 * c + g11.1 * d,
   g00.2 * a + g10.2 * b + g01.2 * c + g11.2 * d)

/-- Source `bilinearInterpolateVector` (lines 505-512): returns `[u, v, √(u²+v²)]`.
The magnitude is a real square root, hence the ℝ-valued last component. -/
noncomputable def bilinearInterpolateVector (x y : ℚ) (g00 g10 g01 g11 : ℚ × ℚ) :
    ℚ × ℚ × ℝ :=
  let uv := bilinearInterpolateVectorUV x y g00 g10 g01 g11
  (uv.1, uv.2, Real.sqrt ((uv.1 * uv.1 + uv.2 * uv.2 : ℚ) : ℝ))

/-! ## math.js helpers (src/math.js) -/

/-- Source `floorMod` (src/math.js lines 5-10), including the `f === n` corner-case
check from the source (with exact rationals the check never fires). -/
def floorMod (a n : ℚ) : ℚ :=
  let f := a - n * ⌊a / n⌋
  if f = n then 0 else f

/-- Source `degreeToIndexWithStepCount` (src/math.js lines 62-68). JS `Math.round x`
is `⌊x + 1/2⌋`, which is Mathlib's `round`. The `max` parameter is unused in
the source as well. -/
def degreeToIndexWithStepCount (degree mi ma steps : ℚ) : ℤ :=
  let floored : ℤ := ⌊degree⌋
  let difference : ℚ := degree - (floored : ℚ)
  let base : ℚ := (floored : ℚ) - mi
  round (base * steps + difference * steps)

/-! ## Irregular grid description (src/products.js lines 106-164) -/

/-- Source `fastArrayMin` (lines 106-114): iterates from the back, skipping nulls;
`none` models the `Infinity` result on an array with no values. -/
def fastArrayMin (arr : List ℚ) : Option ℚ :=
  arr.foldr (fun v acc =>
    match acc with
    | none => some v
    | some m => if v < m then some v else some m) none

/-- Source `fastArrayMax` (lines 116-124): `none` models `-Infinity` on an empty
array. -/
def fastArrayMax (arr : List ℚ) : Option ℚ :=
  arr.foldr (fun v acc =>
    match acc with
    | none => some v
    | some m => if m < v then some v else some m) none

structure GridDescription where
  xmin : ℤ
  xmax : ℤ
  ymin : ℤ
  ymax : ℤ
  width : ℤ
  height : ℤ
  stepping : ℚ
deriving DecidableEq

/-- Source `getIrregularGridDescription` (lines 134-164): integer-degree bounds with a
fixed oversampling factor of 2 cells per degree. `none` models the `NaN`-laden
description JS would produce from empty coordinate arrays. -/
def getIrregularGridDescription (latValues lonValues : List ℚ) :
    Option GridDescription :=
  match fastArrayMin latValues, fastArrayMax latValues,
        fastArrayMin lonValues, fastArrayMax lonValues with
  | some latMinV, some latMaxV, some lonMinV, some lonMaxV =>
    let latMin := round latMinV
    let latMax := round latMaxV
    let lonMin := round lonMinV
    let lonMax := round lonMaxV
    let gridHeight := (latMax - latMin) + 1
    let gridWidth := (lonMax - lonMin) + 1
    some { xmin := lonMin, xmax := lonMax, ymin := latMin, ymax := latMax,
           width := gridWidth * 2, height := gridHeight * 2, stepping := 2 }
  | _, _, _, _ => none

/-- The `latToGridPos` closure of the grid description (lines 157-159). -/
def GridDescription.latToGridPos (d : GridDescription) (lat : ℚ) : ℤ :=
  degreeToIndexWithStepCount lat (d.ymin : ℚ) (d.ymax : ℚ) d.stepping

/-- The `lonToGridPos` closure of the grid description (lines 160-162). -/
def GridDescription.lonToGridPos (d : GridDescription) (lon : ℚ) : ℤ :=
  degreeToIndexWithStepCount lon (d.xmin : ℚ) (d.xmax : ℚ) d.stepping

/-! ## buildGrid (src/products.js lines 541-633)

Grid cells are generic in `α` (scalar values for scalar products, u/v pairs for
wind); a JS `null`/`undefined` cell is `Option.none`. -/

structure GridHeader where
  lo1 : ℚ
  la1 : ℚ
  lo2 : ℚ
  la2 : ℚ
  dx : ℚ
  dy : ℚ
  nx : ℕ
  ny : ℕ
  flipped : Bool

/-- Source `isContinuous = Math.floor(ni * Δλ) >= 360` (line 555). -/
def isContinuous (h : GridHeader) : Bool :=
  decide (360 ≤ ⌊(h.nx : ℚ) * h.dx⌋)

/-- One row of the build loop (lines 556-564): `nx` consecutive samples starting
at flat index `start`; for continuous grids column 0 is duplicated as the last
column (`row.push(row[0])`; on an empty row JS `row[0]` is `undefined`). -/
def buildRow {α : Type} (data : ℕ → Option α) (start nx : ℕ) (cont : Bool) :
    List (Option α) :=
  let row := (List.range nx).map fun i => data (start + i)
  if cont then row ++ [row.getD 0 none] else row

/-- Which source row the build loop stores at array slot `k` (lines 566-570):
the loop writes source row `j` to slot `nj-j-1` when `flipped`, and to slot `j`
otherwise; `j ↦ nj-1-j` is an involution on `[0, nj)`, so slot `k` holds source
row `nj-1-k` when flipped and `k` otherwise. -/
def sourceRowIndex (h : GridHeader) (k : ℕ) : ℕ :=
  if h.flipped then h.ny - 1 - k else k

/-- The built grid's row at (possibly fractional-index-derived) slot `k`; JS
`grid[k]` is `undefined` outside `[0, ny)`. Source row `j` reads flat indices
`j*nx … j*nx+nx-1`. -/
def gridRow {α : Type} (h : GridHeader) (data : ℕ → Option α) (k : ℤ) :
    Option (List (Option α)) :=
  if 0 ≤ k ∧ k < (h.ny : ℤ) then
    some (buildRow data (sourceRowIndex h k.toNat * h.nx) h.nx (isContinuous h))
  else none

/-- The whole stored grid as a list of rows, top slot (array index 0) first:
slot `k` holds source row `sourceRowIndex h k`. -/
def gridRows {α : Type} (h : GridHeader) (data : ℕ → Option α) :
    List (List (Option α)) :=
  (List.range h.ny).map fun k =>
    buildRow data (sourceRowIndex h k * h.nx) h.nx (isContinuous h)

/-- JS `row[k]`: `undefined` for a negative or too-large index. -/
def rowGet {α : Type} (row : List (Option α)) (k : ℤ) : Option α :=
  if 0 ≤ k then row.getD k.toNat none else none

/-- Source `interpolate` (lines 573-610). `comb` is the caller-supplied bilinear
combiner (`builder.interpolate`). In the `cj % nj` access, `cj ≥ 0` whenever
`grid[fj]` exists, so integer `emod` agrees with the JS remainder there. -/
def interpolate {α β : Type} (h : GridHeader) (data : ℕ → Option α)
    (comb : ℚ → ℚ → α → α → α → α → β) (lam phi : ℚ) : Option β :=
  if lam < h.lo1 ∨ h.lo2 < lam then none
  else if phi < h.la2 ∨ h.la1 < phi then none
  else
    let i := floorMod (lam - h.lo1) 360 / h.dx
    let j := (h.la1 - phi) / h.dy
    let fi := ⌊i⌋
    let ci := fi + 1
    let fj := ⌊j⌋
    let cj := fj + 1
    match gridRow h data fj with
    | none => none
    | some row =>
      match rowGet row fi, rowGet row ci with
      | some g00, some g10 =>
        match gridRow h data (cj % (h.ny : ℤ)) with
        | none => none
        | some row2 =>
          match rowGet row2 fi, rowGet row2 ci with
          | some g01, some g11 =>
            some (comb (i - (fi : ℚ)) (j - (fj : ℚ)) g00 g10 g01 g11)
          | _, _ => none
      | _, _ => none

/-! ## Agent (src/agents, `newAgent`)

State machine for the cancellation discipline of `submit`/`runTask`. Cancel
tokens (`cancelFactory` closures) are identified by allocation order; the
`requested` map holds each token's `cancel.requested` flag. `submit` sets the
current token's flag (`this.cancel()`) and installs a fresh token
(`this.cancel = cancelFactory()`), which is the one `runTask` closes over for
the new task. A task's settlement is an event carrying its token:
`resolve t r` is `accept(r)` running under token `t` (updates `value` only when
`!cancel.requested`); `reject t` is the rejection path, which never touches
`value`. -/

structure AgentState (V : Type) where
  value : Option V
  requested : ℕ → Bool
  current : ℕ
  next : ℕ

inductive AgentEvent (V : Type) where
  | submit : AgentEvent V
  | resolve : ℕ → V → AgentEvent V
  | reject : ℕ → AgentEvent V

def agentStep {V : Type} (s : AgentState V) : AgentEvent V → AgentState V
  | .submit =>
    { value := s.value
      requested := Function.update s.requested s.current true
      current := s.next
      next := s.next + 1 }
  | .resolve t r => if s.requested t then s else { s with value := some r }
  | .reject _ => s

/-- A run of the agent: fold the events over the state. -/
def agentRun {V : Type} (s : AgentState V) (l : List (AgentEvent V)) : AgentState V :=
  l.foldl agentStep s

/-! ## Generic-overlay factory, synchronous part (src/products.js lines 395-427)

`FACTORIES.generic.create` assembles the index vector later passed to
`worker.getValues` (the data fetch). The synchronous validation either throws
(`Except.error`) or yields the assembled indices (`Except.ok`); the data fetch
happens only afterwards, inside the builder, with the `ok` payload. -/

def genericCreate (irregular hasHeight hasTime : Bool)
    (heightIndex timeIndex : ℤ) (timeSize : ℕ) : Except String (List ℤ) :=
  let indices : List ℤ := if irregular then [0] else [0, 0]
  let afterHeight : Except String (List ℤ) :=
    if hasHeight then
      if heightIndex = -1 then
        Except.error "Could not find matching index for selected height."
      else Except.ok (heightIndex :: indices)
    else Except.ok indices
  match afterHeight with
  | Except.error e => Except.error e
  | Except.ok ind =>
    if hasTime then
      if timeIndex = -1 ∨ (timeSize : ℤ) ≤ timeIndex then
        Except.error "Could not find matching index for time."
      else Except.ok (timeIndex :: ind)
    else Except.ok ind

/-! ## Agent initial state and reachability invariant -/

/-- State of `newAgent(initial)`: the stored value is the initial value, one
fresh cancel token (id 0) is installed and unrequested. -/
def initialAgent {V : Type} (v : Option V) : AgentState V :=
  { value := v, requested := fun _ => false, current := 0, next := 1 }

/-- Structural invariant of reachable agent states: the current token was
allocated, and tokens not yet allocated are unrequested. -/
def agentInvariant {V : Type} (s : AgentState V) : Prop :=
  s.current < s.next ∧ ∀ t, s.next ≤ t → s.requested t = false

/-! ## Concrete inputs used by the per-claim witnesses and counterexamples -/

/-- Header for the C2 witness: `nx * dx = 360`, a globally continuous grid. -/
def c2Header : GridHeader :=
  { lo1 := 0, la1 := 90, lo2 := 359, la2 := -90, dx := 360, dy := 1,
    nx := 1, ny := 1, flipped := false }

def c2Data : ℕ → Option ℕ := fun p => some p

def c2Row : List (Option ℕ) := buildRow c2Data 0 1 true

/-- Header for claim C3: two rows, not flipped, one sample per row. -/
def c3Header : GridHeader :=
  { lo1 := 0, la1 := 1, lo2 := 0, la2 := 0, dx := 1, dy := 1,
    nx := 1, ny := 2, flipped := false }

def c3Data : ℕ → Option ℕ := fun p => some p

/-- Raster for the C4 witness: 3×3, centre cell empty, all others filled. -/
def c4Grid : ArrayGrid :=
  { width := 3, height := 3,
    grid := fun n =>
      [some (1 : ℚ), some 2, some 3, some 4, none, some 6, some 7, some 8,
        some 9].getD n none }

/-- The grid description produced from converted latitudes `[1.5, 2]` and
longitudes `[0, 1]` (claim C6). -/
def c6Desc : GridDescription :=
  { xmin := 0, xmax := 1, ymin := 2, ymax := 2, width := 4, height := 2,
    stepping := 2 }

/-- Raster for claim C7, 2×3 (flat index `2*y + x`): column 1 is filled at the
top and bottom, so its middle cell is filled by the first pass, which gives the
still-empty cell `(0, 1)` a second filled neighbour for a second pass. -/
def c7Grid : ArrayGrid :=
  { width := 2, height := 3,
    grid := fun n => [some (1 : ℚ), some 5, none, none, none, some 7].getD n none }

/-- Result of the first fill pass over `c7Grid`: cell `(1, 1)` (flat index 3)
is filled with the mean 6 of its neighbours 7 and 5. -/
def c7Fill1 : ArrayGrid :=
  { width := 2, height := 3, grid := Function.update c7Grid.grid 3 (some 6) }

/-- State of the second pass over `c7Fill1` after its first visit: cell
`(0, 1)` (flat index 2) now has two filled neighbours (6 and 1) and is filled
with 7/2. -/
def c7Fill2 : ArrayGrid :=
  { width := 2, height := 3, grid := Function.update c7Fill1.grid 2 (some (7 / 2)) }

/-- Header for the C9 witness. -/
def c9Header : GridHeader :=
  { lo1 := 0, la1 := 90, lo2 := 359, la2 := -90, dx := 1, dy := 1,
    nx := 360, ny := 181, flipped := false }

def c9Data : ℕ → Option ℚ := fun _ => some 1

/-- Raster for the C10 witness: one filled cell, the rest empty. -/
def c10Grid : ArrayGrid :=
  { width := 2, height := 2,
    grid := fun n => [some (1 : ℚ), none, none, none].getD n none }

/-! ## Theorems -/

/-- Claim C8: for both the scalar and the vector bilinear combiners, evaluating
at an exact lattice point (fractional offsets x = 0 and y = 0, all four corner
values given) returns that lattice point's stored value exactly, the vector
combiner returning `[u, v, √(u·u + v·v)]` for corner value `(u, v)`. -/
theorem bilinear_lattice_point_exact (g00 g10 g01 g11 : ℚ) (v00 v10 v01 v11 : ℚ × ℚ) :
    bilinearInterpolateScalar 0 0 g00 g10 g01 g11 = g00 ∧
    bilinearInterpolateVector 0 0 v00 v10 v01 v11 =
      (v00.1, v00.2, Real.sqrt ((v00.1 * v00.1 + v00.2 * v00.2 : ℚ) : ℝ)) := by
  have huv : bilinearInterpolateVectorUV 0 0 v00 v10 v01 v11 = (v00.1, v00.2) := by
    unfold bilinearInterpolateVectorUV
    simp only [Prod.mk.injEq]
    constructor <;> ring
  constructor
  · unfold bilinearInterpolateScalar; ring
  · unfold bilinearInterpolateVector
    rw [huv]

/-- Claim C9: for every built grid and every longitude/latitude pair outside
the rectangle `[lo1, lo2] × [la2, la1]`, `interpolate` returns null. -/
theorem interpolate_outside_bounds_null {α β : Type} (h : GridHeader)
    (data : ℕ → Option α) (comb : ℚ → ℚ → α → α → α → α → β) (lam phi : ℚ)
    (hout : lam < h.lo1 ∨ h.lo2 < lam ∨ phi < h.la2 ∨ h.la1 < phi) :
    interpolate h data comb lam phi = none := by
  unfold interpolate
  split_ifs with h1 h2
  · rfl
  · rfl
  · tauto

/-- Witness for C9 at a concrete header and point: longitude 360 lies right of
`lo2 = 359`. -/
theorem interpolate_outside_bounds_null_witness :
    ((360 : ℚ) < c9Header.lo1 ∨ c9Header.lo2 < 360 ∨ (0 : ℚ) < c9Header.la2 ∨
      c9Header.la1 < 0) ∧
    interpolate c9Header c9Data bilinearInterpolateScalar 360 0 = none :=
  ⟨by decide,
   interpolate_outside_bounds_null c9Header c9Data bilinearInterpolateScalar 360 0
     (by decide)⟩

/-- Claim C5 counterexample: with a levitation dimension of size 2, submitting
`heightIndex = 5` (outside `[0, 2)`) to the generic factory raises no error at
all — `create` assembles and returns the fetch indices `[5, 0, 0]`. The source
only ever compares `heightIndex` against the sentinel `-1`; the upper bound
`levitation.size` is not even an input of the check. -/
theorem genericCreate_height_bound_unchecked :
    genericCreate false true false 5 0 1 = Except.ok [5, 0, 0] ∧ ¬((5 : ℤ) < 2) := by
  constructor
  · rfl
  · decide

/-- Claim C5 amended: when the overlay defines a height dimension, calling
`create` with the sentinel `heightIndex = -1` (the value produced when no
matching height exists) raises the configuration error synchronously, before
any data fetch (the fetch-index vector is never produced); heights `≥
levitation.size` are not validated. -/
theorem genericCreate_height_sentinel_error (irregular hasTime : Bool)
    (heightIndex timeIndex : ℤ) (timeSize : ℕ) (hh : heightIndex = -1) :
    genericCreate irregular true hasTime heightIndex timeIndex timeSize =
      Except.error "Could not find matching index for selected height." := by
  subst hh
  rfl

/-- Witness for the amended C5 at concrete inputs. -/
theorem genericCreate_height_sentinel_error_witness :
    ((-1 : ℤ) = -1) ∧
    genericCreate false true true (-1) 0 3 =
      Except.error "Could not find matching index for selected height." :=
  ⟨rfl, genericCreate_height_sentinel_error false true (-1) 0 3 rfl⟩

/-- Claim C6, evaluated at the failing input (code bug): for converted
latitudes `[1.5, 2]` and longitudes `[0, 1]`, the computed latitude minimum is
`1.5`, which rounds to an integer-degree minimum of 2; the cell sitting at
that extreme maps to raster row `round((1.5 - 2) * 2) = -1`, outside
`[0, height)`. -/
theorem irregular_min_extreme_maps_negative :
    getIrregularGridDescription [3 / 2, 2] [0, 1] = some c6Desc ∧
    fastArrayMin [(3 : ℚ) / 2, 2] = some (3 / 2) ∧
    c6Desc.latToGridPos (3 / 2) = -1 ∧
    ¬(0 ≤ c6Desc.latToGridPos (3 / 2)) := by
  refine ⟨?_, ?_, ?_, ?_⟩
  · norm_num [getIrregularGridDescription, fastArrayMin, fastArrayMax, c6Desc, round_eq,
      Int.floor_eq_iff]
  · norm_num [fastArrayMin]
  · norm_num [GridDescription.latToGridPos, degreeToIndexWithStepCount, c6Desc, round_eq,
      Int.floor_eq_iff]
  · norm_num [GridDescription.latToGridPos, degreeToIndexWithStepCount, c6Desc, round_eq,
      Int.floor_eq_iff]

/-- Claim C3 counterexample: for a two-row non-flipped header, the row stored
at array index `ny - 1 = 1` is source row 1 (`[some 1]`), not source row 0
(`[some 0]`): with `flipped` false the build loop stores source row `j` at slot
`j`, so source row 0 lands at index 0, not `ny - 1`. -/
theorem buildGrid_row_order_claim_false :
    gridRow c3Header c3Data ((c3Header.ny : ℤ) - 1) ≠
      some (buildRow c3Data (0 * c3Header.nx) c3Header.nx (isContinuous c3Header)) := by
  norm_num [gridRow, c3Header, c3Data, buildRow, sourceRowIndex, isContinuous, Int.floor_eq_iff]

/-- Claim C3 amended: rows are stored with the branches the other way around —
for every source row `j < ny`, if `flipped` is false then source row `j` is
stored at array index `j` (row 0 at index 0), and if `flipped` is true then
source row `j` is stored at index `ny - 1 - j` (row 0 at index `ny - 1`). -/
theorem buildGrid_row_order {α : Type} (h : GridHeader) (data : ℕ → Option α)
    (j : ℕ) (hj : j < h.ny) :
    (h.flipped = false →
      gridRow h data (j : ℤ) =
        some (buildRow data (j * h.nx) h.nx (isContinuous h))) ∧
    (h.flipped = true →
      gridRow h data ((h.ny : ℤ) - 1 - (j : ℤ)) =
        some (buildRow data (j * h.nx) h.nx (isContinuous h))) := by
  constructor
  · intro hf
    unfold gridRow
    rw [if_pos ⟨Int.natCast_nonneg j, by exact_mod_cast hj⟩]
    unfold sourceRowIndex
    rw [hf]
    simp [Int.toNat_natCast]
  · intro hf
    unfold gridRow
    have e : (h.ny : ℤ) - 1 - (j : ℤ) = ((h.ny - 1 - j : ℕ) : ℤ) := by omega
    rw [e, if_pos ⟨Int.natCast_nonneg _, by exact_mod_cast (by omega : h.ny - 1 - j < h.ny)⟩]
    unfold sourceRowIndex
    rw [hf]
    simp only [if_true, Int.toNat_natCast]
    have e2 : h.ny - 1 - (h.ny - 1 - j) = j := by omega
    rw [e2]

/-- Witness for the amended C3 at a concrete header (not flipped, two rows),
row 0. -/
theorem buildGrid_row_order_witness :
    (0 < c3Header.ny) ∧
    ((c3Header.flipped = false →
        gridRow c3Header c3Data ((0 : ℕ) : ℤ) =
          some (buildRow c3Data (0 * c3Header.nx) c3Header.nx (isContinuous c3Header))) ∧
     (c3Header.flipped = true →
        gridRow c3Header c3Data ((c3Header.ny : ℤ) - 1 - ((0 : ℕ) : ℤ)) =
          some (buildRow c3Data (0 * c3Header.nx) c3Header.nx (isContinuous c3Header)))) :=
  ⟨by decide, buildGrid_row_order c3Header c3Data 0 (by decide)⟩

/-- Claim C2: for every header with `nx * dx ≥ 360` and every data accessor,
every row of the built grid has length `nx + 1` and its last element equals
its first. -/
theorem buildGrid_continuous_row_wrap {α : Type} (h : GridHeader)
    (data : ℕ → Option α) (hc : 360 ≤ (h.nx : ℚ) * h.dx) :
    ∀ row ∈ gridRows h data,
      row.length = h.nx + 1 ∧ row.getD h.nx none = row.getD 0 none := by
  have hcont : isContinuous h = true := by
    unfold isContinuous
    rw [decide_eq_true_eq]
    rw [Int.le_floor]
    push_cast
    exact hc
  intro row hrow
  unfold gridRows at hrow
  rw [List.mem_map] at hrow
  obtain ⟨k, hk, rfl⟩ := hrow
  rw [hcont]
  unfold buildRow
  rw [if_pos rfl]
  set base := (List.range h.nx).map
    (fun i => data (sourceRowIndex h k * h.nx + i)) with hbase
  have hlen : base.length = h.nx := by
    rw [hbase, List.length_map, List.length_range]
  constructor
  · rw [List.length_append, hlen]
    rfl
  · have hlast : (base ++ [base.getD 0 none]).getD h.nx none = base.getD 0 none := by
      rw [List.getD_append_right base _ none h.nx (by omega), hlen]
      simp
    rw [hlast]
    rcases Nat.eq_zero_or_pos h.nx with hz | hpos
    · have : base = [] := List.eq_nil_of_length_eq_zero (by omega)
      rw [this]
      simp
    · rw [List.getD_append base _ none 0 (by omega)]

/-- Witness for C2 at a concrete continuous header (`nx = 1`, `dx = 360`). -/
theorem buildGrid_continuous_row_wrap_witness :
    (360 ≤ (c2Header.nx : ℚ) * c2Header.dx) ∧ c2Row ∈ gridRows c2Header c2Data ∧
    (c2Row.length = c2Header.nx + 1 ∧
      c2Row.getD c2Header.nx none = c2Row.getD 0 none) :=
  ⟨by norm_num [c2Header],
   by norm_num [gridRows, c2Row, c2Header, buildRow, sourceRowIndex, isContinuous, c2Data,
     Int.floor_eq_iff],
   buildGrid_continuous_row_wrap c2Header c2Data (by norm_num [c2Header]) c2Row
     (by norm_num [gridRows, c2Row, c2Header, buildRow, sourceRowIndex, isContinuous, c2Data,
       Int.floor_eq_iff])⟩

/-! ## Agent lemmas (claim C1) -/

/-- A cancel flag, once requested, stays requested across any later events:
`submit` only sets flags, and settlement events never clear them. -/
lemma agentRun_requested_mono {V : Type} (l : List (AgentEvent V)) :
    ∀ (s : AgentState V) (t : ℕ), s.requested t = true →
      (agentRun s l).requested t = true := by
  induction l with
  | nil => intro s t ht; exact ht
  | cons e tl ih =>
    intro s t ht
    have hstep : (agentStep s e).requested t = true := by
      cases e with
      | submit =>
        simp only [agentStep, Function.update_apply]
        split
        · rfl
        · exact ht
      | resolve t2 r =>
        simp only [agentStep]
        split
        · exact ht
        · exact ht
      | reject t2 => exact ht
    exact ih (agentStep s e) t hstep

lemma agentStep_invariant {V : Type} (s : AgentState V) (e : AgentEvent V)
    (h : agentInvariant s) : agentInvariant (agentStep s e) := by
  obtain ⟨hc, hf⟩ := h
  cases e with
  | submit =>
    refine ⟨by simp [agentStep], ?_⟩
    intro t ht
    simp only [agentStep] at ht ⊢
    rw [Function.update_apply, if_neg (by omega)]
    exact hf t (by omega)
  | resolve t2 r =>
    have hreq : (agentStep s (AgentEvent.resolve t2 r)).requested = s.requested := by
      simp only [agentStep]
      split
      · rfl
      · rfl
    have hnext : (agentStep s (AgentEvent.resolve t2 r)).next = s.next := by
      simp only [agentStep]
      split
      · rfl
      · rfl
    have hcur : (agentStep s (AgentEvent.resolve t2 r)).current = s.current := by
      simp only [agentStep]
      split
      · rfl
      · rfl
    refine ⟨?_, ?_⟩
    · rw [hcur, hnext]
      exact hc
    · intro t ht
      rw [hnext] at ht
      rw [hreq]
      exact hf t ht
  | reject t2 => exact ⟨hc, hf⟩

lemma agentRun_invariant {V : Type} (l : List (AgentEvent V)) :
    ∀ s : AgentState V, agentInvariant s → agentInvariant (agentRun s l) := by
  induction l with
  | nil => intro s h; exact h
  | cons e tl ih => intro s h; exact ih (agentStep s e) (agentStep_invariant s e h)

lemma initialAgent_invariant {V : Type} (v : Option V) :
    agentInvariant (initialAgent v) :=
  ⟨Nat.zero_lt_one, fun _ _ => rfl⟩

/-- Claim C1: if task B is submitted while an earlier task A is still pending,
A's eventual settlement (acceptance with any result, or rejection) never
changes `value()`, no matter what other events intervene; and once both tasks
settle — in either order — `value()` is B's result. `A`'s cancel token is the
one installed by the first `submit` (id `s0.next`), `B`'s by the second. The
agent may start in any reachable state (initial value plus any event
prefix). -/
theorem agent_latest_task_wins {V : Type} (v0 : Option V)
    (pre : List (AgentEvent V)) (r1 r2 : V) :
    let s0 := agentRun (initialAgent v0) pre
    let a := s0.next
    let s2 := agentStep (agentStep s0 AgentEvent.submit) AgentEvent.submit
    let b := (agentStep s0 AgentEvent.submit).next
    (∀ (l : List (AgentEvent V)) (r : V),
        (agentStep (agentRun s2 l) (AgentEvent.resolve a r)).value =
          (agentRun s2 l).value ∧
        (agentStep (agentRun s2 l) (AgentEvent.reject a)).value =
          (agentRun s2 l).value) ∧
    (agentStep (agentStep s2 (AgentEvent.resolve b r2))
        (AgentEvent.resolve a r1)).value = some r2 ∧
    (agentStep (agentStep s2 (AgentEvent.resolve a r1))
        (AgentEvent.resolve b r2)).value = some r2 := by
  intro s0 a s2 b
  have hinv : agentInvariant s0 := agentRun_invariant pre _ (initialAgent_invariant v0)
  obtain ⟨hc, hf⟩ := hinv
  have ha : s2.requested a = true := by
    show (Function.update (agentStep s0 AgentEvent.submit).requested
      (agentStep s0 AgentEvent.submit).current true) a = true
    have : (agentStep s0 AgentEvent.submit).current = a := rfl
    rw [this, Function.update_same]
  have hb : s2.requested b = false := by
    show (Function.update (agentStep s0 AgentEvent.submit).requested
      (agentStep s0 AgentEvent.submit).current true) b = false
    have h1 : (agentStep s0 AgentEvent.submit).current = s0.next := rfl
    have h2 : b = s0.next + 1 := rfl
    rw [h1, Function.update_apply, if_neg (by omega)]
    show (Function.update s0.requested s0.current true) b = false
    rw [Function.update_apply, if_neg (by omega)]
    exact hf b (by omega)
  refine ⟨?_, ?_, ?_⟩
  · intro l r
    have hla : (agentRun s2 l).requested a = true := agentRun_requested_mono l s2 a ha
    constructor
    · simp only [agentStep, hla]
      rfl
    · rfl
  · have h3 : agentStep s2 (AgentEvent.resolve b r2) =
        { s2 with value := some r2 } := by
      simp [agentStep, hb]
    rw [h3]
    simp only [agentStep]
    rw [if_pos ha]
  · have h5 : agentStep s2 (AgentEvent.resolve a r1) = s2 := by
      simp [agentStep, ha]
    rw [h5]
    simp [agentStep, hb]

/-! ## averageGrid lemmas (claims C4, C7, C10) -/

/-- Flat-index injectivity: two in-row-bounds coordinates with the same flat
index `width*y + x` coincide. -/
lemma flatIndex_inj {w x x2 y y2 : ℕ} (hx : x < w) (hx2 : x2 < w)
    (h : w * y + x = w * y2 + x2) : x = x2 ∧ y = y2 := by
  have hw : 0 < w := lt_of_le_of_lt (Nat.zero_le x) hx
  constructor
  · have hm := congrArg (· % w) h
    simpa [Nat.mul_add_mod, Nat.mod_eq_of_lt hx, Nat.mod_eq_of_lt hx2] using hm
  · have hd := congrArg (· / w) h
    simpa [Nat.mul_add_div hw, Nat.div_eq_of_lt hx, Nat.div_eq_of_lt hx2] using hd

/-- Reading an in-bounds cell goes straight to the flat backing array. -/
lemma getAt_eq_grid (g : ArrayGrid) (x y : ℕ) (hx : x < g.width) (hy : y < g.height) :
    g.getAt x y = g.grid (g.width * y + x) := by
  have hcond : ¬((x : ℤ) < 0 ∨ (g.width : ℤ) ≤ (x : ℤ) ∨ (y : ℤ) < 0 ∨
      (g.height : ℤ) ≤ (y : ℤ)) := by omega
  unfold ArrayGrid.getAt
  rw [if_neg hcond, Int.toNat_natCast, Int.toNat_natCast]

lemma setAt_width (g : ArrayGrid) (x y : ℕ) (v : ℚ) : (g.setAt x y v).width = g.width := rfl

lemma setAt_height (g : ArrayGrid) (x y : ℕ) (v : ℚ) : (g.setAt x y v).height = g.height := rfl

/-- Writing an in-bounds cell is visible when reading it back. -/
lemma setAt_getAt_same (g : ArrayGrid) (x y : ℕ) (v : ℚ)
    (hx : x < g.width) (hy : y < g.height) :
    (g.setAt x y v).getAt x y = some v := by
  rw [getAt_eq_grid _ x y (by rw [setAt_width]; exact hx) (by rw [setAt_height]; exact hy)]
  show Function.update g.grid (g.width * y + x) (some v) ((g.setAt x y v).width * y + x) = some v
  rw [setAt_width, Function.update_same]

/-- Writing an in-bounds cell leaves every other read (in- or out-of-bounds)
unchanged. -/
lemma setAt_getAt_ne (g : ArrayGrid) (cx cy : ℕ) (v : ℚ) (x y : ℤ)
    (hcx : cx < g.width) (hcy : cy < g.height)
    (hne : ¬(x = (cx : ℤ) ∧ y = (cy : ℤ))) :
    (g.setAt cx cy v).getAt x y = g.getAt x y := by
  unfold ArrayGrid.getAt
  rw [setAt_width, setAt_height]
  split_ifs with hout
  · rfl
  · show Function.update g.grid (g.width * cy + cx) (some v) _ = _
    rw [Function.update_apply, if_neg ?hneq]
    case hneq =>
      intro hidx
      have hxw : x.toNat < g.width := by omega
      obtain ⟨hx2, hy2⟩ := flatIndex_inj hxw hcx hidx
      exact hne ⟨by omega, by omega⟩

lemma averageAt_width (g : ArrayGrid) (x y : ℕ) : (averageAt g x y).width = g.width := by
  unfold averageAt
  split
  · rfl
  · rfl

lemma averageAt_height (g : ArrayGrid) (x y : ℕ) : (averageAt g x y).height = g.height := by
  unfold averageAt
  split
  · rfl
  · rfl

lemma visitCell_width (g : ArrayGrid) (x y : ℕ) : (visitCell g x y).width = g.width := by
  unfold visitCell
  split
  · exact averageAt_width g x y
  · rfl

lemma visitCell_height (g : ArrayGrid) (x y : ℕ) : (visitCell g x y).height = g.height := by
  unfold visitCell
  split
  · exact averageAt_height g x y
  · rfl

/-- A visit to an in-bounds cell never changes a cell that already holds a
value: writes only target the visited cell, and only when it is empty. -/
lemma visitCell_keeps (g : ArrayGrid) (cx cy : ℕ) (x y : ℤ) (v : ℚ)
    (hcx : cx < g.width) (hcy : cy < g.height)
    (hv : g.getAt x y = some v) :
    (visitCell g cx cy).getAt x y = some v := by
  unfold visitCell
  split_ifs with hnone
  · unfold averageAt
    split_ifs with hlen
    · rw [setAt_getAt_ne g cx cy _ x y hcx hcy ?hne]
      · exact hv
      case hne =>
        rintro ⟨hx2, hy2⟩
        rw [hx2, hy2, hnone] at hv
        exact Option.noConfusion hv
    · exact hv
  · exact hv

/-- Folding visits over in-bounds cells preserves every filled cell. -/
lemma foldl_visit_keeps (l : List (ℕ × ℕ)) :
    ∀ g : ArrayGrid, (∀ p ∈ l, p.1 < g.width ∧ p.2 < g.height) →
      ∀ (x y : ℤ) (v : ℚ), g.getAt x y = some v →
        (l.foldl (fun acc p => visitCell acc p.1 p.2) g).getAt x y = some v := by
  induction l with
  | nil => intro g _ x y v hv; exact hv
  | cons p t ih =>
    intro g hall x y v hv
    simp only [List.foldl_cons]
    have hp := hall p (List.mem_cons_self p t)
    refine ih (visitCell g p.1 p.2) ?_ x y v
      (visitCell_keeps g p.1 p.2 x y v hp.1 hp.2 hv)
    intro q hq
    rw [visitCell_width, visitCell_height]
    exact hall q (List.mem_cons_of_mem p hq)

/-- Folding visits over cells that are all already filled changes nothing. -/
lemma foldl_visit_skip (l : List (ℕ × ℕ)) :
    ∀ g : ArrayGrid, (∀ p ∈ l, g.getAt p.1 p.2 ≠ none) →
      l.foldl (fun acc p => visitCell acc p.1 p.2) g = g := by
  induction l with
  | nil => intro g _; rfl
  | cons p t ih =>
    intro g hall
    have h1 : g.getAt p.1 p.2 ≠ none := hall p (List.mem_cons_self p t)
    have hstep : visitCell g p.1 p.2 = g := by
      unfold visitCell
      rw [if_neg h1]
    simp only [List.foldl_cons, hstep]
    exact ih g (fun q hq => hall q (List.mem_cons_of_mem p hq))

lemma columnOrder_mem (h y : ℕ) : y ∈ columnOrder h ↔ y < h := by
  unfold columnOrder
  rw [List.mem_append, List.mem_range'_1, List.mem_reverse, List.mem_range]
  omega

lemma visitOrder_mem (w h : ℕ) (p : ℕ × ℕ) :
    p ∈ visitOrder w h ↔ p.1 < w ∧ p.2 < h := by
  unfold visitOrder
  rw [List.mem_flatMap]
  constructor
  · rintro ⟨x, hx, hmem⟩
    rw [List.mem_map] at hmem
    obtain ⟨y, hy, rfl⟩ := hmem
    exact ⟨List.mem_range.mp hx, (columnOrder_mem h y).mp hy⟩
  · rintro ⟨h1, h2⟩
    refine ⟨p.1, List.mem_range.mpr h1, ?_⟩
    rw [List.mem_map]
    exact ⟨p.2, (columnOrder_mem h p.2).mpr h2, rfl⟩

lemma columnOrder_nodup (h : ℕ) : (columnOrder h).Nodup := by
  unfold columnOrder
  rw [List.nodup_append]
  refine ⟨List.nodup_range' _ _, List.nodup_reverse.mpr (List.nodup_range _), ?_⟩
  intro a ha hb
  rw [List.mem_range'_1] at ha
  rw [List.mem_reverse, List.mem_range] at hb
  omega

lemma visitOrder_nodup (w h : ℕ) : (visitOrder w h).Nodup := by
  unfold visitOrder
  rw [List.nodup_flatMap]
  constructor
  · intro x _
    exact (columnOrder_nodup h).map fun a b hab => (Prod.mk.inj hab).2
  · refine (List.pairwise_lt_range w).imp ?_
    intro a b hab
    intro p hpa hpb
    rw [List.mem_map] at hpa hpb
    obtain ⟨y, _, rfl⟩ := hpa
    obtain ⟨y2, _, he⟩ := hpb
    exact absurd (Prod.mk.inj he).1.symm (Nat.ne_of_lt hab)

/-- Core frame lemma shared by C7 and C10: a fill pass keeps every filled cell
at exactly its value. -/
lemma averageGrid_keeps (g : ArrayGrid) (x y : ℤ) (v : ℚ)
    (hv : g.getAt x y = some v) : (averageGrid g).getAt x y = some v := by
  unfold averageGrid
  refine foldl_visit_keeps _ g ?_ x y v hv
  intro p hp
  exact (visitOrder_mem g.width g.height p).mp hp

/-- Claim C10: `averageGrid` never modifies an already-filled cell — every cell
holding a value before the pass holds exactly the same value afterwards (reads
at any coordinates, in- or out-of-bounds). -/
theorem averageGrid_frame_filled (g : ArrayGrid) (x y : ℤ) (v : ℚ)
    (hv : g.getAt x y = some v) : (averageGrid g).getAt x y = some v :=
  averageGrid_keeps g x y v hv

/-- Witness for C10 at a concrete raster: the filled corner cell keeps its
value through the pass. -/
theorem averageGrid_frame_filled_witness :
    c10Grid.getAt 0 0 = some 1 ∧ (averageGrid c10Grid).getAt 0 0 = some 1 :=
  ⟨by norm_num [c10Grid, ArrayGrid.getAt],
   averageGrid_frame_filled c10Grid 0 0 1 (by norm_num [c10Grid, ArrayGrid.getAt])⟩

/-! ## Concrete fill-pass evaluations for claim C7 -/

lemma int_toNat_two : (2 : ℤ).toNat = 2 := rfl

lemma int_toNat_three : (3 : ℤ).toNat = 3 := rfl

lemma c7_visitOrder : visitOrder 2 3 = [(0,1),(0,2),(0,0),(1,1),(1,2),(1,0)] := by decide

/-- One full fill pass over `c7Grid` fills exactly cell `(1, 1)` with 6. -/
lemma c7_pass1 : averageGrid c7Grid = c7Fill1 := by
  unfold averageGrid
  rw [show visitOrder c7Grid.width c7Grid.height = [(0,1),(0,2),(0,0),(1,1),(1,2),(1,0)] from
    c7_visitOrder]
  simp only [List.foldl_cons, List.foldl_nil]
  have s1 : visitCell c7Grid 0 1 = c7Grid := by
    unfold visitCell averageAt
    rw [if_pos (by simp [ArrayGrid.getAt, c7Grid]), if_neg (by
      simp [valuesAround, ArrayGrid.getAt, c7Grid, Int.toNat_natCast, int_toNat_two,
        int_toNat_three])]
  have s2 : visitCell c7Grid 0 2 = c7Grid := by
    unfold visitCell averageAt
    rw [if_pos (by simp [ArrayGrid.getAt, c7Grid, int_toNat_two]), if_neg (by
      simp [valuesAround, ArrayGrid.getAt, c7Grid, Int.toNat_natCast, int_toNat_two,
        int_toNat_three])]
  have s3 : visitCell c7Grid 0 0 = c7Grid := by
    unfold visitCell
    rw [if_neg (by simp [ArrayGrid.getAt, c7Grid])]
  have s4 : visitCell c7Grid 1 1 = c7Fill1 := by
    unfold visitCell averageAt
    rw [if_pos (by simp [ArrayGrid.getAt, c7Grid, Int.toNat_natCast]),
      if_pos (by
        simp [valuesAround, ArrayGrid.getAt, c7Grid, Int.toNat_natCast, int_toNat_two,
          int_toNat_three])]
    have hva : valuesAround c7Grid 1 1 = [7, 5] := by
      simp [valuesAround, ArrayGrid.getAt, c7Grid, Int.toNat_natCast, int_toNat_two,
        int_toNat_three]
    simp only [Nat.cast_one]
    rw [hva]
    unfold ArrayGrid.setAt c7Fill1
    norm_num [c7Grid]
  have s5 : visitCell c7Fill1 1 2 = c7Fill1 := by
    unfold visitCell
    rw [if_neg (by simp [ArrayGrid.getAt, c7Fill1, c7Grid, Function.update_apply,
      int_toNat_two])]
  have s6 : visitCell c7Fill1 1 0 = c7Fill1 := by
    unfold visitCell
    rw [if_neg (by simp [ArrayGrid.getAt, c7Fill1, c7Grid, Function.update_apply])]
  rw [s1, s2, s3, s4, s5, s6]

/-- The first visit of a second pass over `c7Fill1` fills cell `(0, 1)`: its
neighbour `(1, 1)` was only filled by the first pass after `(0, 1)` had
already been visited. -/
lemma c7_pass2_first : visitCell c7Fill1 0 1 = c7Fill2 := by
  unfold visitCell averageAt
  rw [if_pos (by simp [ArrayGrid.getAt, c7Fill1, c7Grid, Function.update_apply]),
    if_pos (by
      simp [valuesAround, ArrayGrid.getAt, c7Fill1, c7Grid, Function.update_apply,
        Int.toNat_natCast, int_toNat_two, int_toNat_three])]
  have hva : valuesAround c7Fill1 0 1 = [6, 1] := by
    simp [valuesAround, ArrayGrid.getAt, c7Fill1, c7Grid, Function.update_apply,
      Int.toNat_natCast, int_toNat_two, int_toNat_three]
  simp only [Nat.cast_one, Nat.cast_zero]
  rw [hva]
  unfold ArrayGrid.setAt c7Fill2 c7Fill1
  norm_num [c7Grid]

/-- Claim C7 counterexample: the fill pass is not idempotent. On `c7Grid` the
first pass leaves `(0, 1)` empty (it had a single filled neighbour when
visited), but fills `(1, 1)` afterwards; a second pass then finds two filled
neighbours at `(0, 1)` and fills it, so the second run changes the grid. -/
theorem averageGrid_not_idempotent :
    (averageGrid (averageGrid c7Grid)).getAt 0 1 ≠ (averageGrid c7Grid).getAt 0 1 := by
  rw [c7_pass1]
  have hfirst : (averageGrid c7Fill1).getAt 0 1 = some (7 / 2) := by
    unfold averageGrid
    rw [show visitOrder c7Fill1.width c7Fill1.height =
      [(0,1),(0,2),(0,0),(1,1),(1,2),(1,0)] from c7_visitOrder]
    rw [List.foldl_cons]
    show (List.foldl (fun acc p => visitCell acc p.1 p.2) (visitCell c7Fill1 0 1)
      [(0,2),(0,0),(1,1),(1,2),(1,0)]).getAt 0 1 = some (7 / 2)
    rw [c7_pass2_first]
    refine foldl_visit_keeps _ c7Fill2 (by decide) 0 1 (7 / 2) ?_
    simp [ArrayGrid.getAt, c7Fill2, Function.update_apply, int_toNat_two]
  have hnone : c7Fill1.getAt 0 1 = none := by
    simp [ArrayGrid.getAt, c7Fill1, c7Grid, Function.update_apply, int_toNat_two]
  rw [hfirst, hnone]
  simp

/-- Claim C7 amended: the fill pass is not idempotent in general (a second run
may fill cells the first left empty), but it never modifies a cell that is
filled after the first run — every such cell keeps exactly its value. -/
theorem averageGrid_second_run_preserves_filled (g : ArrayGrid) (x y : ℤ) (v : ℚ)
    (hv : (averageGrid g).getAt x y = some v) :
    (averageGrid (averageGrid g)).getAt x y = some v :=
  averageGrid_keeps (averageGrid g) x y v hv

/-- Witness for the amended C7: cell `(1, 1)` of `c7Grid`, filled with 6 by
the first pass, still holds 6 after the second. -/
theorem averageGrid_second_run_preserves_filled_witness :
    (averageGrid c7Grid).getAt 1 1 = some 6 ∧
    (averageGrid (averageGrid c7Grid)).getAt 1 1 = some 6 :=
  ⟨by rw [c7_pass1]; simp [ArrayGrid.getAt, c7Fill1, Function.update_apply, Int.toNat_natCast,
      int_toNat_three, c7Grid],
   averageGrid_second_run_preserves_filled c7Grid 1 1 6
     (by rw [c7_pass1]; simp [ArrayGrid.getAt, c7Fill1, Function.update_apply,
       Int.toNat_natCast, int_toNat_three, c7Grid])⟩

/-- Claim C4: one fill pass over a raster whose only empty in-bounds cell is
`(x0, y0)`: if at least two of its 4-connected neighbours hold values
(`valuesAround` lists them), the cell afterwards holds their arithmetic mean;
with at most one filled neighbour it stays empty. -/
theorem averageGrid_single_empty_cell (g : ArrayGrid) (x0 y0 : ℕ)
    (hx : x0 < g.width) (hy : y0 < g.height)
    (hempty : g.getAt x0 y0 = none)
    (hfilled : ∀ x < g.width, ∀ y < g.height, (x, y) ≠ (x0, y0) → g.getAt x y ≠ none) :
    (2 ≤ (valuesAround g x0 y0).length →
      (averageGrid g).getAt x0 y0 =
        some ((valuesAround g x0 y0).sum / ((valuesAround g x0 y0).length : ℚ))) ∧
    ((valuesAround g x0 y0).length ≤ 1 → (averageGrid g).getAt x0 y0 = none) := by
  have hmem : (x0, y0) ∈ visitOrder g.width g.height :=
    (visitOrder_mem _ _ _).mpr ⟨hx, hy⟩
  obtain ⟨l1, l2, hsplit⟩ := List.append_of_mem hmem
  have hnd := visitOrder_nodup g.width g.height
  rw [hsplit] at hnd
  obtain ⟨hnd1, hnd2, hdisj⟩ := List.nodup_append.mp hnd
  have h1 : (x0, y0) ∉ l1 := fun hm => hdisj hm (List.mem_cons_self _ _)
  have h2 : (x0, y0) ∉ l2 := (List.nodup_cons.mp hnd2).1
  have hb1 : ∀ p ∈ l1, p.1 < g.width ∧ p.2 < g.height := by
    intro p hp
    exact (visitOrder_mem _ _ p).mp (hsplit ▸ List.mem_append_left _ hp)
  have hb2 : ∀ p ∈ l2, p.1 < g.width ∧ p.2 < g.height := by
    intro p hp
    refine (visitOrder_mem _ _ p).mp (hsplit ▸ List.mem_append_right _ ?_)
    exact List.mem_cons_of_mem _ hp
  have hfill1 : ∀ p ∈ l1, g.getAt p.1 p.2 ≠ none := by
    intro p hp
    have hb := hb1 p hp
    refine hfilled p.1 hb.1 p.2 hb.2 ?_
    intro he
    rw [Prod.mk.eta] at he
    exact h1 (he ▸ hp)
  have hfill2 : ∀ p ∈ l2, g.getAt p.1 p.2 ≠ none := by
    intro p hp
    have hb := hb2 p hp
    refine hfilled p.1 hb.1 p.2 hb.2 ?_
    intro he
    rw [Prod.mk.eta] at he
    exact h2 (he ▸ hp)
  unfold averageGrid
  rw [hsplit, List.foldl_append, foldl_visit_skip l1 g hfill1, List.foldl_cons,
    show visitCell g (x0, y0).1 (x0, y0).2 = visitCell g x0 y0 from rfl]
  have hvisit : visitCell g x0 y0 = averageAt g x0 y0 := by
    unfold visitCell
    rw [if_pos hempty]
  constructor
  · intro hlen
    have hgt : 1 < (valuesAround g x0 y0).length := hlen
    have havg : averageAt g x0 y0 =
        g.setAt x0 y0 ((valuesAround g x0 y0).sum / ((valuesAround g x0 y0).length : ℚ)) := by
      unfold averageAt
      rw [if_pos hgt]
    rw [hvisit, havg]
    set w := (valuesAround g x0 y0).sum / ((valuesAround g x0 y0).length : ℚ) with hw
    have hfill2b : ∀ p ∈ l2, (g.setAt x0 y0 w).getAt p.1 p.2 ≠ none := by
      intro p hp
      have hb := hb2 p hp
      have hne : ¬(((p.1 : ℕ) : ℤ) = (x0 : ℤ) ∧ ((p.2 : ℕ) : ℤ) = (y0 : ℤ)) := by
        rintro ⟨e1, e2⟩
        have hpp : p = (x0, y0) := by
          rw [← Prod.mk.eta (p := p)]
          rw [Nat.cast_inj.mp e1, Nat.cast_inj.mp e2]
        exact h2 (hpp ▸ hp)
      rw [setAt_getAt_ne g x0 y0 w p.1 p.2 hx hy hne]
      exact hfill2 p hp
    rw [foldl_visit_skip l2 _ hfill2b]
    exact setAt_getAt_same g x0 y0 w hx hy
  · intro hlen
    have havg : averageAt g x0 y0 = g := by
      unfold averageAt
      rw [if_neg (by omega)]
    rw [hvisit, havg, foldl_visit_skip l2 g hfill2]
    exact hempty

/-- Witness for C4: the centre cell of `c4Grid` has four filled neighbours
4, 2, 6, 8, so one pass sets it to their mean 5. -/
theorem averageGrid_single_empty_cell_witness :
    (1 < c4Grid.width ∧ 1 < c4Grid.height ∧ c4Grid.getAt 1 1 = none ∧
      (∀ x < c4Grid.width, ∀ y < c4Grid.height, (x, y) ≠ (1, 1) →
        c4Grid.getAt x y ≠ none)) ∧
    ((2 ≤ (valuesAround c4Grid 1 1).length →
      (averageGrid c4Grid).getAt 1 1 =
        some ((valuesAround c4Grid 1 1).sum / ((valuesAround c4Grid 1 1).length : ℚ))) ∧
     ((valuesAround c4Grid 1 1).length ≤ 1 → (averageGrid c4Grid).getAt 1 1 = none)) :=
  ⟨⟨by decide, by decide, by decide, by decide⟩,
   averageGrid_single_empty_cell c4Grid 1 1 (by decide) (by decide) (by decide) (by decide)⟩

end Earth
